import Mathlib

/-!
Verification of `src/main.py` (mp4-multitrack-wav-exporter): a shallow
embedding of `get_audio_stream_count` and `extract_audio_tracks` over an
environment oracle describing the outcomes of the external world
(subprocess invocations of ffprobe/ffmpeg, `json.loads`, and the
filesystem), together with theorems settling the frozen claims.

A run is modelled as the list of observable events it performs: console
prints, external-process invocations (`subprocess.run` with the exact
argument vector the Python code builds), and `os.makedirs` calls.  A
Python call either returns a value or raises, so the top-level function
is `Except`-valued; the claims about "no exception propagates" become
theorems that the result is always `Except.ok`.
-/

namespace MP4Wav

/-- A parsed Python value as returned by `json.loads`. -/
inductive PyObj where
  | dict : List (String × PyObj) → PyObj
  | list : List PyObj → PyObj
  | str : String → PyObj
  | int : Int → PyObj
  | bool : Bool → PyObj
  | none : PyObj

/-- Python `obj.get(key, default)`: defined on dicts, raises
`AttributeError` on every other value.  The error string models the raised
exception's text. -/
def pyGetD (o : PyObj) (key : String) (default : PyObj) : Except String PyObj :=
  match o with
  | PyObj.dict entries =>
    match entries.lookup key with
    | Option.some v => Except.ok v
    | Option.none => Except.ok default
  | _ => Except.error "AttributeError: object has no attribute get"

/-- Python `len(obj)`: defined on dicts, lists and strings, raises
`TypeError` on every other value. -/
def pyLen (o : PyObj) : Except String Nat :=
  match o with
  | PyObj.dict entries => Except.ok entries.length
  | PyObj.list elems => Except.ok elems.length
  | PyObj.str s => Except.ok s.length
  | _ => Except.error "TypeError: object has no len"

/-- `len(streams_info.get('streams', []))` from line 27 of the source. -/
def streamsLen (streams_info : PyObj) : Except String Nat :=
  match pyGetD streams_info "streams" (PyObj.list []) with
  | Except.error e => Except.error e
  | Except.ok v => pyLen v

/-- Outcome of one `subprocess.run(command, capture_output=True, text=True,
check=True)` call: normal exit 0 with captured stdout/stderr, or one of the
exceptions the call can raise (`FileNotFoundError` when the binary is
missing, `CalledProcessError` on a non-zero exit — carrying the exception's
printed text and the captured stderr —, or any other `Exception`). -/
inductive RunOutcome where
  | ok : String → String → RunOutcome
  | fileNotFound : RunOutcome
  | calledProcessError : String → String → RunOutcome
  | otherError : String → RunOutcome
deriving DecidableEq

/-- The external world of one program run: filesystem predicates, path
normalisation, `json.loads`, process invocation and `os.makedirs`.
`jsonParse` returns `none` when `json.loads` raises `JSONDecodeError`;
`makedirs` returns `some e` when `os.makedirs` raises `OSError e` (with a
`str` argument `os.makedirs` raises only `OSError`), `none` on success. -/
structure Env where
  isfile : String → Bool
  pathExists : String → Bool
  abspath : String → String
  jsonParse : String → Option PyObj
  run : List String → RunOutcome
  makedirs : String → Option String

/-- An observable action of the program: a console print, a
`subprocess.run` of the given argument vector, or an `os.makedirs`. -/
inductive Event where
  | print : String → Event
  | exec : List String → Event
  | mkdirs : String → Event
deriving DecidableEq

/-- Last index of a character in a character list, if present. -/
def lastIndexOf (c : Char) : List Char → Option Nat
  | [] => Option.none
  | x :: xs =>
    match lastIndexOf c xs with
    | Option.some k => Option.some (k + 1)
    | Option.none => if x = c then Option.some 0 else Option.none

/-- `os.path.basename` (POSIX): the part after the last slash. -/
def basename (p : String) : String :=
  String.mk ((p.data.reverse.takeWhile (fun c => c ≠ ('/'))).reverse)

/-- Python `str.strip()`: whitespace removed from both ends. -/
def pyStrip (s : String) : String :=
  String.mk (((s.data.dropWhile Char.isWhitespace).reverse.dropWhile
    Char.isWhitespace).reverse)

/-- `os.path.splitext(s)[0]` (POSIX) for a string with no slash, as applied
to a basename: drop the last dot-suffix unless every character before the
last dot is itself a dot. -/
def splitextRoot (s : String) : String :=
  match lastIndexOf ('.') s.data with
  | Option.none => s
  | Option.some d =>
    if (s.data.take d).all (fun c => c = ('.')) then s
    else String.mk (s.data.take d)

/-- `os.path.dirname` (POSIX): everything up to the last slash, with
trailing slashes stripped unless the head is all slashes. -/
def dirname (p : String) : String :=
  match lastIndexOf ('/') p.data with
  | Option.none => ""
  | Option.some i =>
    let head := p.data.take (i + 1)
    if head.all (fun c => c = ('/')) then String.mk head
    else String.mk ((head.reverse.dropWhile (fun c => c = ('/'))).reverse)

/-- Whether a string starts with a slash. -/
def startsWithSlash (s : String) : Bool :=
  match s.data with
  | [] => false
  | c :: _ => c = ('/')

/-- Whether a string ends with a slash. -/
def endsWithSlash (s : String) : Bool :=
  match s.data.getLast? with
  | Option.some c => c = ('/')
  | Option.none => false

/-- `os.path.join(a, b)` (POSIX) for two components. -/
def joinPath (a b : String) : String :=
  if startsWithSlash b then b
  else if a = "" ∨ endsWithSlash a then a ++ b
  else a ++ "/" ++ b

/-- The ffprobe argument vector built at lines 16-23 of the source. -/
def ffprobeCommand (filepath : String) : List String :=
  ["ffprobe", "-v", "quiet", "-print_format", "json", "-show_streams",
   "-select_streams", "a", filepath]

/-- The ffmpeg argument vector built at lines 90-97 of the source. -/
def ffmpegCommand (mp4_filepath : String) (i : Nat) (output_filepath : String) :
    List String :=
  let mapArg := s!"0:a:{i}"
  ["ffmpeg", "-y", "-i", mp4_filepath, "-map", mapArg, "-c:a", "pcm_s16le",
   output_filepath]

/-- Message printed when ffprobe is missing (line 29). -/
def msgFfprobeMissing : String :=
  "エラー: ffprobe が見つかりません。FFmpegが正しくインストールされ、パスが通っているか確認してください。"

/-- Message printed when ffprobe output fails to parse (line 37). -/
def msgParseFail : String :=
  "エラー: ffprobe の出力 (JSON形式) の解析に失敗しました。"

/-- Message printed by the broad `except Exception` of the inspector (line 40). -/
def msgUnexpectedGac (e : String) : String :=
  s!"予期せぬエラーが発生しました (get_audio_stream_count): {e}"

/-- Message printed when ffmpeg is missing (line 106). -/
def msgFfmpegMissing : String :=
  "エラー: ffmpeg が見つかりません。FFmpegが正しくインストールされ、パスが通っているか確認してください。"

/-- Message printed when ffprobe exits non-zero (line 32). -/
def msgProbeError (e : String) : String :=
  s!"ffprobe の実行中にエラーが発生しました: {e}"

/-- Message printing ffprobe's captured stderr (line 34), applied to the
stripped stderr text. -/
def msgProbeStderr (stripped : String) : String :=
  s!"エラー詳細:\n{stripped}"

/-- Header printed for the file being processed (line 56). -/
def msgProcessing (p : String) : String :=
  s!"処理中のファイル: {p}"

/-- Report of the number of tracks found (line 65). -/
def msgFoundTracks (p : String) (n : Int) : String :=
  s!"'{p}' には {n} 個の音声トラックが見つかりました。抽出を開始します..."

/-- Report that the output directory was created (line 76). -/
def msgDirCreated (d : String) : String :=
  s!"出力ディレクトリ '{d}' を作成しました。"

/-- Report that creating the output directory failed (line 78). -/
def msgDirFail (d e : String) : String :=
  s!"エラー: 出力ディレクトリ '{d}' の作成に失敗しました: {e}"

/-- Per-track progress line (line 99). -/
def msgExtracting (i : Nat) (output_filepath : String) : String :=
  s!"  トラック {i} を '{output_filepath}' に抽出中..."

/-- Per-track completion line (line 103). -/
def msgTrackDone (i : Nat) : String :=
  s!"  トラック {i} の抽出が完了しました。"

/-- Per-track non-zero-exit report (line 109). -/
def msgTrackError (i : Nat) : String :=
  s!"  トラック {i} の抽出中にエラーが発生しました。"

/-- The echoed command line (lines 110 and 118). -/
def msgCommand (cmdLine : String) : String :=
  s!"  コマンド: {cmdLine}"

/-- The captured ffmpeg stderr (line 113), applied to the stripped text. -/
def msgFfmpegStderr (stripped : String) : String :=
  s!"  FFmpegエラー出力:\n{stripped}"

/-- The exception text when ffmpeg produced no stderr (line 115). -/
def msgErrDetail (e : String) : String :=
  s!"  エラー詳細: {e}"

/-- Per-track unexpected-error report (line 117). -/
def msgTrackUnexpected (i : Nat) (e : String) : String :=
  s!"  トラック {i} の抽出中に予期せぬエラーが発生しました: {e}"

/-- Summary when every track succeeded (line 122). -/
def msgAllDone (k : Nat) : String :=
  s!"\n全ての音声トラック ({k}個) の抽出が完了しました。"

/-- The output-directory line of the summary (lines 123 and 126), applied
to the absolute path. -/
def msgOutDir (absDir : String) : String :=
  s!"出力先ディレクトリ: {absDir}"

/-- Summary when only some tracks succeeded (line 125). -/
def msgPartial (k : Nat) : String :=
  s!"\n{k}個の音声トラックの抽出が完了しましたが、一部エラーが発生した可能性があります。"

/-- Summary when every track failed (line 128). -/
def msgAllFailed : String :=
  "\n音声トラックの抽出に全て失敗しました。上記のエラーメッセージを確認してください。"

/-- `get_audio_stream_count` (lines 6-41): returns the stream count, or -1
on each of the four error conditions, paired with the run's events.  The
whole body is one `try` whose handlers cover every exception the body can
raise, so the result is always `Except.ok`; the `Except` type records that
a Python call either returns or raises. -/
def get_audio_stream_count (env : Env) (filepath : String) :
    Except String (Int × List Event) :=
  let command := ffprobeCommand filepath
  match env.run command with
  | RunOutcome.ok stdout _ =>
    match env.jsonParse stdout with
    | Option.none =>
      Except.ok (-1, [Event.exec command, Event.print msgParseFail])
    | Option.some streams_info =>
      match streamsLen streams_info with
      | Except.ok n => Except.ok (Int.ofNat n, [Event.exec command])
      | Except.error e =>
        Except.ok (-1, [Event.exec command, Event.print (msgUnexpectedGac e)])
  | RunOutcome.fileNotFound =>
    Except.ok (-1, [Event.exec command, Event.print msgFfprobeMissing])
  | RunOutcome.calledProcessError e stderr =>
    let stripped := pyStrip stderr
    Except.ok (-1,
      [Event.exec command, Event.print (msgProbeError e)] ++
        (if stderr = "" then [] else [Event.print (msgProbeStderr stripped)]))
  | RunOutcome.otherError e =>
    Except.ok (-1, [Event.exec command, Event.print (msgUnexpectedGac e)])

/-- The output file name of track `i` (line 84):
`f"\x7bbase_filename\x7d_track_\x7bi\x7d.wav"`. -/
def trackFileName (base_filename : String) (i : Nat) : String :=
  s!"{base_filename}_track_{i}.wav"

/-- The per-index extraction loop (lines 82-118), over the list of indices
still to process, threading the `successful_extractions` counter.  Returns
the final counter, the events of the processed indices, and whether the
loop was aborted by the `return` in the `except FileNotFoundError` handler
(line 107). -/
def extractLoop (env : Env) (mp4_filepath output_dir base_filename : String) :
    List Nat → Nat → Nat × List Event × Bool
  | [], successful_extractions => (successful_extractions, [], false)
  | i :: rest, successful_extractions =>
    let output_filename := trackFileName base_filename i
    let output_filepath := joinPath output_dir output_filename
    let command := ffmpegCommand mp4_filepath i output_filepath
    let evPre : List Event :=
      [Event.print (msgExtracting i output_filepath), Event.exec command]
    match env.run command with
    | RunOutcome.ok _ _ =>
      let r := extractLoop env mp4_filepath output_dir base_filename rest
        (successful_extractions + 1)
      (r.1, evPre ++ [Event.print (msgTrackDone i)] ++ r.2.1, r.2.2)
    | RunOutcome.fileNotFound =>
      (successful_extractions, evPre ++ [Event.print msgFfmpegMissing], true)
    | RunOutcome.calledProcessError e stderr =>
      let cmdLine := String.intercalate " " command
      let stripped := pyStrip stderr
      let evs := evPre ++
        [Event.print (msgTrackError i), Event.print (msgCommand cmdLine)] ++
        (if stderr = "" then [Event.print (msgErrDetail e)]
         else [Event.print (msgFfmpegStderr stripped)])
      let r := extractLoop env mp4_filepath output_dir base_filename rest
        successful_extractions
      (r.1, evs ++ r.2.1, r.2.2)
    | RunOutcome.otherError e =>
      let cmdLine := String.intercalate " " command
      let evs := evPre ++
        [Event.print (msgTrackUnexpected i e), Event.print (msgCommand cmdLine)]
      let r := extractLoop env mp4_filepath output_dir base_filename rest
        successful_extractions
      (r.1, evs ++ r.2.1, r.2.2)

/-- The summary block at lines 121-128, reached only when the loop was not
aborted by the missing-ffmpeg `return`. -/
def summaryEvents (env : Env) (output_dir : String)
    (successful_extractions num_audio_tracks : Nat) : List Event :=
  let absDir := env.abspath output_dir
  if successful_extractions = num_audio_tracks ∧ 0 < num_audio_tracks then
    [Event.print (msgAllDone successful_extractions), Event.print (msgOutDir absDir)]
  else if 0 < successful_extractions then
    [Event.print (msgPartial successful_extractions), Event.print (msgOutDir absDir)]
  else if 0 < num_audio_tracks then
    [Event.print msgAllFailed]
  else []

/-- The loop over `range(num_audio_tracks)` followed by the summary block;
when the loop was aborted by the missing-ffmpeg `return`, the summary is
skipped (the function returned at line 107). -/
def runLoopAndSummary (env : Env) (mp4_filepath output_dir base_filename : String)
    (n : Nat) : List Event :=
  let r := extractLoop env mp4_filepath output_dir base_filename (List.range n) 0
  if r.2.2 then r.2.1 else r.2.1 ++ summaryEvents env output_dir r.1 n

/-- Message printed when the input file is missing (line 53). -/
def msgInputMissing (p : String) : String :=
  s!"エラー: 入力ファイル '{p}' が見つかりません。パスを確認してください。"

/-- Message printed when zero audio tracks were found (line 61). -/
def msgNoTracks (p : String) : String :=
  s!"'{p}' には抽出可能な音声トラックが見つかりませんでした。"

/-- `extract_audio_tracks` (lines 43-129) as the list of events of one run.
`output_dir` is the optional second argument (`None` when omitted). -/
def extract_audio_tracks (env : Env) (mp4_filepath : String)
    (output_dir : Option String) : Except String (List Event) :=
  if env.isfile mp4_filepath = false then
    Except.ok [Event.print (msgInputMissing mp4_filepath)]
  else
    let ev0 : List Event := [Event.print (msgProcessing mp4_filepath)]
    match get_audio_stream_count env mp4_filepath with
    | Except.error e => Except.error e
    | Except.ok (num_audio_tracks, evProbe) =>
      if num_audio_tracks ≤ 0 then
        if num_audio_tracks = 0 then
          Except.ok (ev0 ++ evProbe ++ [Event.print (msgNoTracks mp4_filepath)])
        else
          Except.ok (ev0 ++ evProbe)
      else
        let ev1 := ev0 ++ evProbe ++
          [Event.print (msgFoundTracks mp4_filepath num_audio_tracks)]
        let base_filename := splitextRoot (basename mp4_filepath)
        let n := num_audio_tracks.toNat
        match output_dir with
        | Option.none =>
          let dir := dirname (env.abspath mp4_filepath)
          Except.ok (ev1 ++ runLoopAndSummary env mp4_filepath dir base_filename n)
        | Option.some dir =>
          if env.pathExists dir = false then
            match env.makedirs dir with
            | Option.none =>
              Except.ok (ev1 ++
                [Event.mkdirs dir, Event.print (msgDirCreated dir)] ++
                runLoopAndSummary env mp4_filepath dir base_filename n)
            | Option.some e =>
              Except.ok (ev1 ++ [Event.mkdirs dir, Event.print (msgDirFail dir e)])
          else
            Except.ok (ev1 ++ runLoopAndSummary env mp4_filepath dir base_filename n)

/-- The events of a run (the payload of `extract_audio_tracks`, which is
proved to always be `Except.ok`). -/
def runTrace (env : Env) (mp4_filepath : String) (output_dir : Option String) :
    List Event :=
  match extract_audio_tracks env mp4_filepath output_dir with
  | Except.ok t => t
  | Except.error _ => []

/-- The integer the Stream Inspector reports for a path. -/
def streamCountOf (env : Env) (filepath : String) : Int :=
  match get_audio_stream_count env filepath with
  | Except.ok r => r.1
  | Except.error _ => -1

/-- The events of the Stream Inspector call for a path. -/
def gacEvents (env : Env) (filepath : String) : List Event :=
  match get_audio_stream_count env filepath with
  | Except.ok r => r.2
  | Except.error _ => []

/-- The output directory the run resolves (lines 69-70): the caller's
directory when given, else the input file's own directory. -/
def resolvedOutputDir (env : Env) (mp4_filepath : String)
    (output_dir : Option String) : String :=
  match output_dir with
  | Option.some d => d
  | Option.none => dirname (env.abspath mp4_filepath)

/-- Whether an event is a transcode (ffmpeg) invocation. -/
def isFfmpegExec : Event → Bool
  | Event.exec ("ffmpeg" :: _) => true
  | _ => false

/-- Whether an event is any external-process invocation. -/
def isExec : Event → Bool
  | Event.exec _ => true
  | _ => false

/-- Whether an event is an `os.makedirs` call. -/
def isMkdirs : Event → Bool
  | Event.mkdirs _ => true
  | _ => false

/-- Whether an event is a console print. -/
def isPrint : Event → Bool
  | Event.print _ => true
  | _ => false

/-- Whether a `subprocess.run` outcome is a normal (exit 0) completion. -/
def isOkRun : RunOutcome → Bool
  | RunOutcome.ok _ _ => true
  | _ => false

/-- Whether a `subprocess.run` outcome is a failure other than the binary
being missing: a non-zero exit or any other unexpected error. -/
def isNonMissingFailure : RunOutcome → Bool
  | RunOutcome.calledProcessError _ _ => true
  | RunOutcome.otherError _ => true
  | _ => false

/-- The ffmpeg argument vector the loop builds for index `i` when
extracting into directory `d` with base name `b`. -/
def loopCmd (mp4_filepath d b : String) (i : Nat) : List String :=
  ffmpegCommand mp4_filepath i (joinPath d (trackFileName b i))

/-- The output path of track `i` in a run: the resolved output directory
joined with the track's file name. -/
def trackPath (env : Env) (mp4_filepath : String) (output_dir : Option String)
    (i : Nat) : String :=
  joinPath (resolvedOutputDir env mp4_filepath output_dir)
    (trackFileName (splitextRoot (basename mp4_filepath)) i)

/-- The ffmpeg argument vector of track `i` in a run. -/
def trackCmd (env : Env) (mp4_filepath : String) (output_dir : Option String)
    (i : Nat) : List String :=
  ffmpegCommand mp4_filepath i (trackPath env mp4_filepath output_dir i)

/-- The events a run performs before entering the extraction loop, once the
input exists and the inspector reported `n > 0` tracks: the processing
header, the inspector's own events, the tracks-found report, and the
output-directory creation when one was needed. -/
def preEvents (env : Env) (mp4_filepath : String) (output_dir : Option String)
    (n : Int) : List Event :=
  [Event.print (msgProcessing mp4_filepath)] ++ gacEvents env mp4_filepath ++
  [Event.print (msgFoundTracks mp4_filepath n)] ++
  (match output_dir with
   | Option.none => []
   | Option.some dir =>
     if env.pathExists dir = false then
       [Event.mkdirs dir, Event.print (msgDirCreated dir)]
     else [])

/-- The decimal value of a digit character. -/
def chVal (c : Char) : Nat := c.toNat - 48

/-- The numeric value of a big-endian list of decimal digit characters. -/
def strVal : List Char → Nat
  | [] => 0
  | c :: cs => chVal c * 10 ^ cs.length + strVal cs

/-- A fully successful world: the input file exists, every directory
exists, every process invocation exits 0, and ffprobe's output parses to a
dict whose streams key holds the given number of entries. -/
def okEnv (streams : Nat) : Env where
  isfile := fun _ => true
  pathExists := fun _ => true
  abspath := fun p => p
  jsonParse := fun _ =>
    Option.some (PyObj.dict
      [("streams", PyObj.list (List.replicate streams (PyObj.dict [])))])
  run := fun _ => RunOutcome.ok "" ""
  makedirs := fun _ => Option.none

/-- A world with one audio stream where the requested output directory does
not exist and its creation fails with an `OSError`. -/
def envMkdirFail : Env :=
  { okEnv 1 with
    pathExists := fun _ => false
    makedirs := fun _ => Option.some "Permission denied" }

/-- A world with two audio streams where the ffmpeg binary is missing
(every ffmpeg invocation raises `FileNotFoundError`) while ffprobe works. -/
def envFfmpegMissing : Env :=
  { okEnv 2 with
    run := fun cmd =>
      if cmd.headD "" = "ffprobe" then RunOutcome.ok "" ""
      else RunOutcome.fileNotFound }

/-- A world with two audio streams where the extraction of track 0 fails
with an unexpected error and every other invocation succeeds. -/
def envTrack0Fails : Env :=
  { okEnv 2 with
    run := fun cmd =>
      if "0:a:0" ∈ cmd then RunOutcome.otherError "boom"
      else RunOutcome.ok "" "" }

/-- A world where the ffprobe binary is missing. -/
def envProbeMissing : Env :=
  { okEnv 0 with run := fun _ => RunOutcome.fileNotFound }

/-- A world where ffprobe exits 0 and its output parses as JSON, but the
parsed dict has no streams key. -/
def envNoStreamsKey : Env :=
  { okEnv 0 with
    jsonParse := fun _ => Option.some (PyObj.dict [("format", PyObj.dict [])]) }

/-- A world where the input path is not an existing regular file. -/
def envNoInput : Env :=
  { okEnv 1 with isfile := fun _ => false }

/-- A world with one audio stream where the requested output directory does
not exist but its creation succeeds. -/
def envMkdirOk : Env :=
  { okEnv 1 with pathExists := fun _ => false }

/-- The final value of the `successful_extractions` counter of a run that
enters the extraction loop with `N` tracks. -/
def runSuccesses (env : Env) (p : String) (odir : Option String) (N : Nat) : Nat :=
  (extractLoop env p (resolvedOutputDir env p odir) (splitextRoot (basename p))
    (List.range N) 0).1

/-! ### Decimal rendering is injective

`f"..._track_{i}.wav"` renders `i` in decimal (`Nat.repr`); the lemmas
below recover `i` from the rendered digits, giving injectivity, which is
what makes the per-run output file names pairwise distinct. -/

theorem chVal_digitChar : ∀ d : Nat, d < 10 → chVal (Nat.digitChar d) = d := by
  decide

theorem strVal_toDigitsCore :
    ∀ (fuel n : Nat) (ds : List Char), n < 10 ^ fuel →
      strVal (Nat.toDigitsCore 10 fuel n ds) = n * 10 ^ ds.length + strVal ds := by
  intro fuel
  induction fuel with
  | zero =>
    intro n ds h
    have hn : n = 0 := by simpa using h
    subst hn
    simp [Nat.toDigitsCore]
  | succ fuel ih =>
    intro n ds h
    by_cases h0 : n / 10 = 0
    · have hn : n < 10 := by omega
      have hmod : n % 10 = n := Nat.mod_eq_of_lt hn
      simp [Nat.toDigitsCore, h0, strVal, hmod, chVal_digitChar n hn]
    · have hdiv : n / 10 < 10 ^ fuel := by
        rw [pow_succ] at h
        exact Nat.div_lt_iff_lt_mul (by norm_num) |>.mpr h
      have hrec := ih (n / 10) (Nat.digitChar (n % 10) :: ds) hdiv
      have hstep : Nat.toDigitsCore 10 (fuel + 1) n ds
          = Nat.toDigitsCore 10 fuel (n / 10) (Nat.digitChar (n % 10) :: ds) := by
        simp [Nat.toDigitsCore, h0]
      rw [hstep, hrec]
      have hm : n % 10 < 10 := Nat.mod_lt _ (by norm_num)
      simp only [strVal, List.length_cons, chVal_digitChar _ hm]
      have expand : n / 10 * 10 ^ (ds.length + 1) + n % 10 * 10 ^ ds.length
          = n * 10 ^ ds.length := by
        rw [pow_succ]
        calc n / 10 * (10 ^ ds.length * 10) + n % 10 * 10 ^ ds.length
            = (n / 10 * 10 + n % 10) * 10 ^ ds.length := by ring
          _ = n * 10 ^ ds.length := by
              congr 1
              omega
      omega

theorem strVal_toDigits (n : Nat) : strVal (Nat.toDigits 10 n) = n := by
  have h : n < 10 ^ (n + 1) :=
    lt_of_lt_of_le (Nat.lt_pow_self (by norm_num) n)
      (Nat.pow_le_pow_right (by norm_num) (Nat.le_succ n))
  simpa [Nat.toDigits] using strVal_toDigitsCore (n + 1) n [] h

theorem trackFileName_eq (b : String) (i : Nat) :
    trackFileName b i = b ++ "_track_" ++ toString i ++ ".wav" := rfl

theorem trackFileName_injective (b : String) {i j : Nat}
    (h : trackFileName b i = trackFileName b j) : i = j := by
  have hd : b.data ++ ("_track_".data ++ ((Nat.repr i).data ++ ".wav".data))
      = b.data ++ ("_track_".data ++ ((Nat.repr j).data ++ ".wav".data)) := by
    have h2 := congrArg String.data h
    rw [trackFileName_eq, trackFileName_eq] at h2
    simpa [String.data_append, List.append_assoc] using h2
  have h3 := List.append_cancel_left (List.append_cancel_left hd)
  have h4 : Nat.toDigits 10 i = Nat.toDigits 10 j := List.append_cancel_right h3
  have h5 := congrArg strVal h4
  rwa [strVal_toDigits, strVal_toDigits] at h5

/-! ### Event classifiers on the events the model emits -/

theorem isFfmpegExec_ffprobe (p : String) :
    isFfmpegExec (Event.exec (ffprobeCommand p)) = false := rfl

theorem isFfmpegExec_ffmpeg (p o : String) (i : Nat) :
    isFfmpegExec (Event.exec (ffmpegCommand p i o)) = true := rfl

theorem isFfmpegExec_print (s : String) : isFfmpegExec (Event.print s) = false := rfl

theorem isFfmpegExec_mkdirs (d : String) : isFfmpegExec (Event.mkdirs d) = false := rfl

theorem isMkdirs_print (s : String) : isMkdirs (Event.print s) = false := rfl

theorem isMkdirs_exec (c : List String) : isMkdirs (Event.exec c) = false := rfl

/-! ### The Stream Inspector -/

theorem gac_never_raises (env : Env) (p : String) :
    ∃ r, get_audio_stream_count env p = Except.ok r := by
  unfold get_audio_stream_count
  cases h : env.run (ffprobeCommand p) with
  | ok so st =>
    simp only [h]
    cases hj : env.jsonParse so with
    | none => exact ⟨_, rfl⟩
    | some v =>
      simp only [hj]
      cases hs : streamsLen v with
      | ok n => exact ⟨_, rfl⟩
      | error e => exact ⟨_, rfl⟩
  | fileNotFound => simp only [h]; exact ⟨_, rfl⟩
  | calledProcessError e st => simp only [h]; exact ⟨_, rfl⟩
  | otherError e => simp only [h]; exact ⟨_, rfl⟩

theorem gac_ok (env : Env) (p : String) :
    get_audio_stream_count env p
      = Except.ok (streamCountOf env p, gacEvents env p) := by
  obtain ⟨r, h⟩ := gac_never_raises env p
  simp [streamCountOf, gacEvents, h]

theorem gacEvents_no_ffmpeg (env : Env) (p : String) :
    (gacEvents env p).filter isFfmpegExec = [] := by
  unfold gacEvents get_audio_stream_count
  cases h : env.run (ffprobeCommand p) with
  | ok so st =>
    simp only [h]
    cases hj : env.jsonParse so with
    | none => simp [isFfmpegExec_ffprobe, isFfmpegExec_print]
    | some v =>
      simp only [hj]
      cases hs : streamsLen v with
      | ok n => simp [isFfmpegExec_ffprobe]
      | error e => simp [isFfmpegExec_ffprobe, isFfmpegExec_print]
  | fileNotFound => simp [h, isFfmpegExec_ffprobe, isFfmpegExec_print]
  | calledProcessError e st =>
    by_cases hst : st = "" <;>
      simp [h, hst, isFfmpegExec_ffprobe, isFfmpegExec_print]
  | otherError e => simp [h, isFfmpegExec_ffprobe, isFfmpegExec_print]

theorem gacEvents_no_mkdirs (env : Env) (p : String) :
    (gacEvents env p).filter isMkdirs = [] := by
  unfold gacEvents get_audio_stream_count
  cases h : env.run (ffprobeCommand p) with
  | ok so st =>
    simp only [h]
    cases hj : env.jsonParse so with
    | none => simp [isMkdirs_print, isMkdirs_exec]
    | some v =>
      simp only [hj]
      cases hs : streamsLen v with
      | ok n => simp [isMkdirs_exec]
      | error e => simp [isMkdirs_print, isMkdirs_exec]
  | fileNotFound => simp [h, isMkdirs_print, isMkdirs_exec]
  | calledProcessError e st =>
    by_cases hst : st = "" <;> simp [h, hst, isMkdirs_print, isMkdirs_exec]
  | otherError e => simp [h, isMkdirs_print, isMkdirs_exec]

/-! ### The extraction loop -/

theorem extractLoop_nil (env : Env) (p d b : String) (s : Nat) :
    extractLoop env p d b [] s = (s, [], false) := rfl

theorem extractLoop_cons_ok (env : Env) (p d b : String) (i : Nat)
    (rest : List Nat) (s : Nat) (so st : String)
    (h : env.run (loopCmd p d b i) = RunOutcome.ok so st) :
    extractLoop env p d b (i :: rest) s =
      ((extractLoop env p d b rest (s + 1)).1,
       Event.print (msgExtracting i (joinPath d (trackFileName b i)))
         :: Event.exec (loopCmd p d b i)
         :: Event.print (msgTrackDone i)
         :: (extractLoop env p d b rest (s + 1)).2.1,
       (extractLoop env p d b rest (s + 1)).2.2) := by
  unfold loopCmd at h ⊢
  simp [extractLoop, h]

theorem extractLoop_cons_notFound (env : Env) (p d b : String) (i : Nat)
    (rest : List Nat) (s : Nat)
    (h : env.run (loopCmd p d b i) = RunOutcome.fileNotFound) :
    extractLoop env p d b (i :: rest) s =
      (s, [Event.print (msgExtracting i (joinPath d (trackFileName b i))),
           Event.exec (loopCmd p d b i), Event.print msgFfmpegMissing],
       true) := by
  unfold loopCmd at h ⊢
  simp [extractLoop, h]

theorem extractLoop_cons_cpe (env : Env) (p d b : String) (i : Nat)
    (rest : List Nat) (s : Nat) (e st : String)
    (h : env.run (loopCmd p d b i) = RunOutcome.calledProcessError e st) :
    extractLoop env p d b (i :: rest) s =
      ((extractLoop env p d b rest s).1,
       Event.print (msgExtracting i (joinPath d (trackFileName b i)))
         :: Event.exec (loopCmd p d b i)
         :: Event.print (msgTrackError i)
         :: Event.print (msgCommand (String.intercalate " " (loopCmd p d b i)))
         :: ((if st = "" then [Event.print (msgErrDetail e)]
              else [Event.print (msgFfmpegStderr (pyStrip st))])
             ++ (extractLoop env p d b rest s).2.1),
       (extractLoop env p d b rest s).2.2) := by
  unfold loopCmd at h ⊢
  simp [extractLoop, h]

theorem extractLoop_cons_other (env : Env) (p d b : String) (i : Nat)
    (rest : List Nat) (s : Nat) (e : String)
    (h : env.run (loopCmd p d b i) = RunOutcome.otherError e) :
    extractLoop env p d b (i :: rest) s =
      ((extractLoop env p d b rest s).1,
       Event.print (msgExtracting i (joinPath d (trackFileName b i)))
         :: Event.exec (loopCmd p d b i)
         :: Event.print (msgTrackUnexpected i e)
         :: Event.print (msgCommand (String.intercalate " " (loopCmd p d b i)))
         :: (extractLoop env p d b rest s).2.1,
       (extractLoop env p d b rest s).2.2) := by
  unfold loopCmd at h ⊢
  simp [extractLoop, h]

theorem extractLoop_cons_exec_mem (env : Env) (p d b : String) (i : Nat)
    (rest : List Nat) (s : Nat) :
    Event.exec (loopCmd p d b i) ∈ (extractLoop env p d b (i :: rest) s).2.1 := by
  cases henv : env.run (loopCmd p d b i) with
  | ok so st => rw [extractLoop_cons_ok env p d b i rest s so st henv]; simp
  | fileNotFound => rw [extractLoop_cons_notFound env p d b i rest s henv]; simp
  | calledProcessError e st =>
    rw [extractLoop_cons_cpe env p d b i rest s e st henv]; simp
  | otherError e => rw [extractLoop_cons_other env p d b i rest s e henv]; simp

theorem extractLoop_append (env : Env) (p d b : String) (xs ys : List Nat) :
    ∀ s : Nat,
      extractLoop env p d b (xs ++ ys) s =
        ((if (extractLoop env p d b xs s).2.2 then (extractLoop env p d b xs s).1
          else (extractLoop env p d b ys (extractLoop env p d b xs s).1).1),
         (extractLoop env p d b xs s).2.1 ++
           (if (extractLoop env p d b xs s).2.2 then []
            else (extractLoop env p d b ys (extractLoop env p d b xs s).1).2.1),
         ((extractLoop env p d b xs s).2.2
            || (extractLoop env p d b ys (extractLoop env p d b xs s).1).2.2)) := by
  induction xs with
  | nil => intro s; simp [extractLoop_nil]
  | cons i rest ih =>
    intro s
    rw [List.cons_append]
    cases henv : env.run (loopCmd p d b i) with
    | ok so st =>
      rw [extractLoop_cons_ok env p d b i (rest ++ ys) s so st henv,
        extractLoop_cons_ok env p d b i rest s so st henv, ih (s + 1)]
      simp [List.append_assoc]
    | fileNotFound =>
      rw [extractLoop_cons_notFound env p d b i (rest ++ ys) s henv,
        extractLoop_cons_notFound env p d b i rest s henv]
      simp
    | calledProcessError e st =>
      rw [extractLoop_cons_cpe env p d b i (rest ++ ys) s e st henv,
        extractLoop_cons_cpe env p d b i rest s e st henv, ih s]
      by_cases hst : st = "" <;> simp [hst, List.append_assoc]
    | otherError e =>
      rw [extractLoop_cons_other env p d b i (rest ++ ys) s e henv,
        extractLoop_cons_other env p d b i rest s e henv, ih s]
      simp [List.append_assoc]

theorem extractLoop_clean (env : Env) (p d b : String) (xs : List Nat) :
    ∀ s : Nat,
      (∀ i ∈ xs, env.run (loopCmd p d b i) ≠ RunOutcome.fileNotFound) →
        (extractLoop env p d b xs s).2.2 = false ∧
        (extractLoop env p d b xs s).1
          = s + xs.countP (fun i => isOkRun (env.run (loopCmd p d b i))) ∧
        (extractLoop env p d b xs s).2.1.filter isFfmpegExec
          = xs.map (fun i => Event.exec (loopCmd p d b i)) := by
  induction xs with
  | nil => intro s _; simp [extractLoop_nil]
  | cons i rest ih =>
    intro s h
    have hi : env.run (loopCmd p d b i) ≠ RunOutcome.fileNotFound :=
      h i (List.mem_cons_self i rest)
    have hrest : ∀ j ∈ rest, env.run (loopCmd p d b j) ≠ RunOutcome.fileNotFound :=
      fun j hj => h j (List.mem_cons_of_mem i hj)
    cases henv : env.run (loopCmd p d b i) with
    | ok so st =>
      obtain ⟨hh, hc, hf⟩ := ih (s + 1) hrest
      rw [extractLoop_cons_ok env p d b i rest s so st henv]
      refine ⟨hh, ?_, ?_⟩
      · rw [hc, List.countP_cons]
        simp [henv, isOkRun]
        omega
      · simp [List.filter_cons, isFfmpegExec_print, isFfmpegExec_ffmpeg, hf, loopCmd]
    | fileNotFound => exact absurd henv hi
    | calledProcessError e st =>
      obtain ⟨hh, hc, hf⟩ := ih s hrest
      rw [extractLoop_cons_cpe env p d b i rest s e st henv]
      refine ⟨hh, ?_, ?_⟩
      · rw [hc, List.countP_cons]
        simp [henv, isOkRun]
      · by_cases hst : st = "" <;>
          simp [hst, List.filter_cons, isFfmpegExec_print, isFfmpegExec_ffmpeg, hf,
            loopCmd]
    | otherError e =>
      obtain ⟨hh, hc, hf⟩ := ih s hrest
      rw [extractLoop_cons_other env p d b i rest s e henv]
      refine ⟨hh, ?_, ?_⟩
      · rw [hc, List.countP_cons]
        simp [henv, isOkRun]
      · simp [List.filter_cons, isFfmpegExec_print, isFfmpegExec_ffmpeg, hf, loopCmd]

/-! ### Summary block and run assembly -/

theorem summaryEvents_no_ffmpeg (env : Env) (d : String) (k n : Nat) :
    (summaryEvents env d k n).filter isFfmpegExec = [] := by
  unfold summaryEvents
  split_ifs <;> simp [isFfmpegExec_print]

theorem summaryEvents_no_mkdirs (env : Env) (d : String) (k n : Nat) :
    (summaryEvents env d k n).filter isMkdirs = [] := by
  unfold summaryEvents
  split_ifs <;> simp [isMkdirs_print]

theorem summaryEvents_all (env : Env) (d : String) (k : Nat) {n : Nat}
    (hk : k = n) (hn : 0 < n) :
    summaryEvents env d k n
      = [Event.print (msgAllDone k), Event.print (msgOutDir (env.abspath d))] := by
  unfold summaryEvents
  rw [if_pos ⟨hk, hn⟩]

theorem summaryEvents_partial (env : Env) (d : String) {k n : Nat}
    (hk : 0 < k) (hlt : k ≠ n) :
    summaryEvents env d k n
      = [Event.print (msgPartial k), Event.print (msgOutDir (env.abspath d))] := by
  unfold summaryEvents
  rw [if_neg (fun hc => hlt hc.1), if_pos hk]

theorem summaryEvents_none (env : Env) (d : String) {n : Nat} (hn : 0 < n)
    (hne : n ≠ 0) :
    summaryEvents env d 0 n = [Event.print msgAllFailed] := by
  unfold summaryEvents
  rw [if_neg (fun hc => hne hc.1.symm), if_neg (by omega), if_pos hn]

/-- Reaching the loop: when the input exists, the inspector reports
`N > 0` tracks and the output-directory step does not fail, the run is the
pre-loop events followed by the loop and its summary, over the resolved
output directory and the extension-stripped base name. -/
theorem extract_run_eq (env : Env) (p : String) (odir : Option String) (N : Nat)
    (hfile : env.isfile p = true)
    (hgac : streamCountOf env p = Int.ofNat N)
    (hN : 0 < N)
    (hdir : ∀ d, odir = Option.some d →
      env.pathExists d = true ∨ env.makedirs d = Option.none) :
    extract_audio_tracks env p odir
      = Except.ok (preEvents env p odir (Int.ofNat N) ++
          runLoopAndSummary env p (resolvedOutputDir env p odir)
            (splitextRoot (basename p)) N) := by
  unfold extract_audio_tracks
  rw [hfile]
  rw [gac_ok env p, hgac]
  have hpos : ¬ (Int.ofNat N ≤ 0) :=
    fun hc => absurd ((Int.ofNat_le (m := N) (n := 0)).mp hc) (by omega)
  simp only [Bool.true_eq_false, if_false, hpos, if_true]
  cases odir with
  | none =>
    simp [preEvents, resolvedOutputDir, List.append_assoc]
  | some d =>
    rcases hdir d rfl with hex | hmk
    · simp [preEvents, resolvedOutputDir, hex, List.append_assoc]
    · cases hex : env.pathExists d with
      | true => simp [preEvents, resolvedOutputDir, hex, List.append_assoc]
      | false => simp [preEvents, resolvedOutputDir, hex, hmk, List.append_assoc]

theorem trackCmd_eq_loopCmd (env : Env) (p : String) (odir : Option String)
    (i : Nat) :
    trackCmd env p odir i
      = loopCmd p (resolvedOutputDir env p odir) (splitextRoot (basename p)) i := rfl

theorem isNonMissingFailure_ne_notFound {r : RunOutcome}
    (h : isNonMissingFailure r = true) : r ≠ RunOutcome.fileNotFound := by
  cases r <;> simp_all [isNonMissingFailure]

theorem isNonMissingFailure_cases {r : RunOutcome}
    (h : isNonMissingFailure r = true) :
    (∃ e st, r = RunOutcome.calledProcessError e st) ∨
      ∃ e, r = RunOutcome.otherError e := by
  cases r <;> simp_all [isNonMissingFailure]

theorem preEvents_no_ffmpeg (env : Env) (p : String) (odir : Option String)
    (n : Int) : (preEvents env p odir n).filter isFfmpegExec = [] := by
  unfold preEvents
  cases odir with
  | none =>
    simp [List.filter_append, gacEvents_no_ffmpeg, isFfmpegExec_print]
  | some d =>
    cases hex : env.pathExists d <;>
      simp [hex, List.filter_append, gacEvents_no_ffmpeg, isFfmpegExec_print,
        isFfmpegExec_mkdirs]

theorem mem_runLoopAndSummary (env : Env) (p d b : String) (n : Nat) (x : Event)
    (hx : x ∈ (extractLoop env p d b (List.range n) 0).2.1) :
    x ∈ runLoopAndSummary env p d b n := by
  unfold runLoopAndSummary
  cases hb : (extractLoop env p d b (List.range n) 0).2.2 with
  | true => simpa [hb] using hx
  | false => simp only [hb, if_false, Bool.false_eq_true]
             exact List.mem_append_left _ hx

theorem extractLoop_range_split (env : Env) (p d b : String) {m n : Nat}
    (h : m ≤ n) (s : Nat) :
    (extractLoop env p d b (List.range n) s).2.1
      = (extractLoop env p d b (List.range m) s).2.1 ++
        (if (extractLoop env p d b (List.range m) s).2.2 then []
         else (extractLoop env p d b ((List.range (n - m)).map (m + ·))
           ((extractLoop env p d b (List.range m) s).1)).2.1) := by
  conv_lhs => rw [show n = m + (n - m) by omega, List.range_add,
    extractLoop_append]

theorem mapArg_eq (i : Nat) :
    (s!"0:a:{i}" : String) = "0:a:" ++ toString i ++ "" := rfl

theorem mapArg_injective {i j : Nat} (h : (s!"0:a:{i}" : String) = s!"0:a:{j}") :
    i = j := by
  rw [mapArg_eq, mapArg_eq] at h
  have hd : "0:a:".data ++ (Nat.repr i).data = "0:a:".data ++ (Nat.repr j).data := by
    have h2 := congrArg String.data h
    simpa [String.data_append] using h2
  have h3 : Nat.toDigits 10 i = Nat.toDigits 10 j := List.append_cancel_left hd
  have h4 := congrArg strVal h3
  rwa [strVal_toDigits, strVal_toDigits] at h4

theorem ffmpegCommand_index_injective {p q o o2 : String} {i j : Nat}
    (h : ffmpegCommand p i o = ffmpegCommand q j o2) : i = j := by
  have harg : (s!"0:a:{i}" : String) = s!"0:a:{j}" := by
    have := congrArg (fun l => l.get? 5) h
    simpa [ffmpegCommand] using this
  exact mapArg_injective harg

/-! ### The claims -/

/-- Claim C1, counterexample: as stated the claim fails on the code.  In the
world `envMkdirFail` the input `movie.mp4` exists, the Stream Inspector
returns `N = 1 > 0` and ffmpeg is found for every index (no invocation ever
raises `FileNotFoundError`), yet the run makes 0 extraction attempts, not
`N = 1`, because the requested output directory `out` does not exist and
`os.makedirs` fails. -/
theorem claim_C1_counterexample :
    envMkdirFail.isfile "movie.mp4" = true ∧
    streamCountOf envMkdirFail "movie.mp4" = Int.ofNat 1 ∧
    envMkdirFail.run (trackCmd envMkdirFail "movie.mp4" (Option.some "out") 0)
      ≠ RunOutcome.fileNotFound ∧
    (runTrace envMkdirFail "movie.mp4" (Option.some "out")).filter isFfmpegExec
      = [] := by
  refine ⟨rfl, rfl, by decide, by decide⟩

/-- Claim C1 (amended: the claim additionally requires that the
output-directory step succeeds, i.e. the resolved directory exists or its
creation succeeds — the case `claim_C1_counterexample` exhibits is
excluded): for every run of `extract_audio_tracks` on an existing input
with inspector count `N > 0`, ffmpeg found for every index and a
successful output-directory step, exactly `N` extraction attempts are
made, one per index `0 .. N-1` in ascending order, each invoking ffmpeg
with the output path of that index (the resolved output directory joined
with the base name, extension stripped, plus the `_track_<i>.wav` suffix),
and the `N` output file names are pairwise distinct. -/
theorem claim_C1 (env : Env) (p : String) (odir : Option String) (N : Nat)
    (hfile : env.isfile p = true)
    (hgac : streamCountOf env p = Int.ofNat N)
    (hN : 0 < N)
    (hdir : ∀ d, odir = Option.some d →
      env.pathExists d = true ∨ env.makedirs d = Option.none)
    (hff : ∀ i, i < N →
      env.run (trackCmd env p odir i) ≠ RunOutcome.fileNotFound) :
    (runTrace env p odir).filter isFfmpegExec
      = (List.range N).map (fun i => Event.exec (trackCmd env p odir i)) ∧
    ((List.range N).map
      (fun i => trackFileName (splitextRoot (basename p)) i)).Nodup := by
  constructor
  · have hrun := extract_run_eq env p odir N hfile hgac hN hdir
    have hclean := extractLoop_clean env p (resolvedOutputDir env p odir)
      (splitextRoot (basename p)) (List.range N) 0
      (fun i hi => by
        rw [← trackCmd_eq_loopCmd]
        exact hff i (List.mem_range.mp hi))
    obtain ⟨hhalt, _, hfilter⟩ := hclean
    unfold runTrace
    rw [hrun]
    rw [List.filter_append, preEvents_no_ffmpeg, List.nil_append]
    unfold runLoopAndSummary
    simp only [hhalt, Bool.false_eq_true, if_false]
    rw [List.filter_append, hfilter, summaryEvents_no_ffmpeg, List.append_nil]
    exact List.map_congr_left (fun i _ => by rw [trackCmd_eq_loopCmd])
  · exact (List.nodup_range N).map
      (fun a b hab => trackFileName_injective (splitextRoot (basename p)) hab)

/-- Claim C1, witness: the amended theorem applied to a concrete fully
successful world with two audio streams. -/
theorem claim_C1_witness :
    (runTrace (okEnv 2) "movie.mp4" Option.none).filter isFfmpegExec
      = (List.range 2).map
          (fun i => Event.exec (trackCmd (okEnv 2) "movie.mp4" Option.none i)) ∧
    ((List.range 2).map
      (fun i => trackFileName (splitextRoot (basename "movie.mp4")) i)).Nodup :=
  claim_C1 (okEnv 2) "movie.mp4" Option.none 2 rfl rfl (by decide)
    (fun d hd => nomatch hd) (by decide)

/-- Claim C2: if the attempt for track `i` fails for a reason other than
the ffmpeg binary being missing (non-zero exit or other unexpected error),
the attempt for track `i + 1` is still made — its ffmpeg invocation occurs
in the run's trace — and the failing iteration neither increments the
success counter nor sets the abort flag: the loop starting at `i` returns
the same counter and abort flag as the loop without `i`. -/
theorem claim_C2 (env : Env) (p : String) (odir : Option String) (N i : Nat)
    (hfile : env.isfile p = true)
    (hgac : streamCountOf env p = Int.ofNat N)
    (hi : i + 1 < N)
    (hdir : ∀ d, odir = Option.some d →
      env.pathExists d = true ∨ env.makedirs d = Option.none)
    (hprev : ∀ j, j < i →
      env.run (trackCmd env p odir j) ≠ RunOutcome.fileNotFound)
    (hfail : isNonMissingFailure (env.run (trackCmd env p odir i)) = true) :
    Event.exec (trackCmd env p odir (i + 1)) ∈ runTrace env p odir ∧
    (∀ (rest : List Nat) (s : Nat),
      (extractLoop env p (resolvedOutputDir env p odir)
        (splitextRoot (basename p)) (i :: rest) s).1
        = (extractLoop env p (resolvedOutputDir env p odir)
            (splitextRoot (basename p)) rest s).1 ∧
      (extractLoop env p (resolvedOutputDir env p odir)
        (splitextRoot (basename p)) (i :: rest) s).2.2
        = (extractLoop env p (resolvedOutputDir env p odir)
            (splitextRoot (basename p)) rest s).2.2) := by
  have hN : 0 < N := by omega
  constructor
  · have hrun := extract_run_eq env p odir N hfile hgac hN hdir
    unfold runTrace
    rw [hrun]
    apply List.mem_append_right
    apply mem_runLoopAndSummary
    rw [extractLoop_range_split env p (resolvedOutputDir env p odir)
      (splitextRoot (basename p)) (show i + 2 ≤ N by omega) 0]
    apply List.mem_append_left
    have hsplit : List.range (i + 2) = List.range (i + 1) ++ [i + 1] := by
      exact List.range_succ (i + 1)
    rw [hsplit, extractLoop_append]
    have hclean := extractLoop_clean env p (resolvedOutputDir env p odir)
      (splitextRoot (basename p)) (List.range (i + 1)) 0
      (fun j hj => by
        rw [← trackCmd_eq_loopCmd]
        rcases Nat.lt_succ_iff_lt_or_eq.mp (List.mem_range.mp hj) with hlt | heq
        · exact hprev j hlt
        · subst heq
          exact isNonMissingFailure_ne_notFound hfail)
    simp only [hclean.1, Bool.false_eq_true, if_false]
    apply List.mem_append_right
    rw [trackCmd_eq_loopCmd]
    exact extractLoop_cons_exec_mem env p (resolvedOutputDir env p odir)
      (splitextRoot (basename p)) (i + 1) []
      (extractLoop env p (resolvedOutputDir env p odir)
        (splitextRoot (basename p)) (List.range (i + 1)) 0).1
  · intro rest s
    rw [trackCmd_eq_loopCmd] at hfail
    rcases isNonMissingFailure_cases hfail with ⟨e, st, hr⟩ | ⟨e, hr⟩
    · rw [extractLoop_cons_cpe env p (resolvedOutputDir env p odir)
        (splitextRoot (basename p)) i rest s e st hr]
      exact ⟨rfl, rfl⟩
    · rw [extractLoop_cons_other env p (resolvedOutputDir env p odir)
        (splitextRoot (basename p)) i rest s e hr]
      exact ⟨rfl, rfl⟩

/-- Claim C2, witness: in a concrete world with two streams where the
extraction of track 0 fails with an unexpected error, track 1 is still
attempted, and the failing iteration changes neither counter nor flag. -/
theorem claim_C2_witness :
    Event.exec (trackCmd envTrack0Fails "m.mp4" Option.none 1)
      ∈ runTrace envTrack0Fails "m.mp4" Option.none ∧
    (∀ (rest : List Nat) (s : Nat),
      (extractLoop envTrack0Fails "m.mp4"
        (resolvedOutputDir envTrack0Fails "m.mp4" Option.none)
        (splitextRoot (basename "m.mp4")) (0 :: rest) s).1
        = (extractLoop envTrack0Fails "m.mp4"
            (resolvedOutputDir envTrack0Fails "m.mp4" Option.none)
            (splitextRoot (basename "m.mp4")) rest s).1 ∧
      (extractLoop envTrack0Fails "m.mp4"
        (resolvedOutputDir envTrack0Fails "m.mp4" Option.none)
        (splitextRoot (basename "m.mp4")) (0 :: rest) s).2.2
        = (extractLoop envTrack0Fails "m.mp4"
            (resolvedOutputDir envTrack0Fails "m.mp4" Option.none)
            (splitextRoot (basename "m.mp4")) rest s).2.2) :=
  claim_C2 envTrack0Fails "m.mp4" Option.none 2 0 rfl rfl (by decide)
    (fun d hd => nomatch hd) (fun j hj => absurd hj (by omega)) (by decide)

set_option maxRecDepth 4000 in
/-- Claim C3: if the invocation for track `i` raises `FileNotFoundError`
(the ffmpeg binary is missing), the run's transcode invocations are exactly
those of indices `0 .. i` — no attempt is made for any index greater than
`i`, under any output path — and the run ends immediately with the
missing-binary report as its last event (in particular no summary
follows). -/
theorem claim_C3 (env : Env) (p : String) (odir : Option String) (N i : Nat)
    (hfile : env.isfile p = true)
    (hgac : streamCountOf env p = Int.ofNat N)
    (hi : i < N)
    (hdir : ∀ d, odir = Option.some d →
      env.pathExists d = true ∨ env.makedirs d = Option.none)
    (hprev : ∀ j, j < i →
      env.run (trackCmd env p odir j) ≠ RunOutcome.fileNotFound)
    (hnf : env.run (trackCmd env p odir i) = RunOutcome.fileNotFound) :
    (runTrace env p odir).filter isFfmpegExec
      = (List.range (i + 1)).map (fun j => Event.exec (trackCmd env p odir j)) ∧
    (∀ j, i < j → ∀ q : String,
      Event.exec (ffmpegCommand p j q) ∉ runTrace env p odir) ∧
    (runTrace env p odir).getLast? = Option.some (Event.print msgFfmpegMissing) := by
  have hN : 0 < N := by omega
  have hrun := extract_run_eq env p odir N hfile hgac hN hdir
  have hclean := extractLoop_clean env p (resolvedOutputDir env p odir)
    (splitextRoot (basename p)) (List.range i) 0
    (fun j hj => by
      rw [← trackCmd_eq_loopCmd]
      exact hprev j (List.mem_range.mp hj))
  have hrangesplit : List.range N
      = List.range i ++ (List.range (N - i)).map (i + ·) := by
    have h1 : i + (N - i) = N := by omega
    have h2 := List.range_add i (N - i)
    rw [h1] at h2
    exact h2
  have hT : (List.range (N - i)).map (i + ·)
      = i :: (List.range (N - i - 1)).map (fun k => i + (k + 1)) := by
    have h2 : N - i = (N - i - 1) + 1 := by omega
    rw [h2, List.range_succ_eq_map, List.map_cons, List.map_map]
    rfl
  have hnf2 : env.run (loopCmd p (resolvedOutputDir env p odir)
      (splitextRoot (basename p)) i) = RunOutcome.fileNotFound := by
    rw [← trackCmd_eq_loopCmd]; exact hnf
  have htail := extractLoop_cons_notFound env p (resolvedOutputDir env p odir)
    (splitextRoot (basename p)) i
    ((List.range (N - i - 1)).map (fun k => i + (k + 1)))
    (extractLoop env p (resolvedOutputDir env p odir)
      (splitextRoot (basename p)) (List.range i) 0).1 hnf2
  have hloop : extractLoop env p (resolvedOutputDir env p odir)
      (splitextRoot (basename p)) (List.range N) 0
      = ((extractLoop env p (resolvedOutputDir env p odir)
            (splitextRoot (basename p)) (List.range i) 0).1,
         (extractLoop env p (resolvedOutputDir env p odir)
            (splitextRoot (basename p)) (List.range i) 0).2.1 ++
           [Event.print (msgExtracting i (joinPath (resolvedOutputDir env p odir)
              (trackFileName (splitextRoot (basename p)) i))),
            Event.exec (loopCmd p (resolvedOutputDir env p odir)
              (splitextRoot (basename p)) i),
            Event.print msgFfmpegMissing],
         true) := by
    rw [hrangesplit, extractLoop_append, hT, htail, hclean.1]
    simp only [Bool.false_eq_true, if_false, Bool.false_or]
  have htrace : runTrace env p odir
      = preEvents env p odir (Int.ofNat N) ++
        ((extractLoop env p (resolvedOutputDir env p odir)
            (splitextRoot (basename p)) (List.range i) 0).2.1 ++
          [Event.print (msgExtracting i (joinPath (resolvedOutputDir env p odir)
             (trackFileName (splitextRoot (basename p)) i))),
           Event.exec (loopCmd p (resolvedOutputDir env p odir)
             (splitextRoot (basename p)) i),
           Event.print msgFfmpegMissing]) := by
    unfold runTrace
    rw [hrun]
    unfold runLoopAndSummary
    rw [hloop]
    rfl
  have hfiltered : (runTrace env p odir).filter isFfmpegExec
      = (List.range (i + 1)).map (fun j => Event.exec (trackCmd env p odir j)) := by
    rw [htrace, List.filter_append, preEvents_no_ffmpeg, List.nil_append,
      List.filter_append, hclean.2.2]
    have hr1 : List.range (i + 1) = List.range i ++ [i] := by
      exact List.range_succ i
    rw [hr1, List.map_append]
    congr 1
  refine ⟨hfiltered, ?_, ?_⟩
  · intro j hj q hmem
    have hin : Event.exec (ffmpegCommand p j q)
        ∈ (runTrace env p odir).filter isFfmpegExec :=
      List.mem_filter.mpr ⟨hmem, isFfmpegExec_ffmpeg p q j⟩
    rw [hfiltered] at hin
    obtain ⟨k, hk, hke⟩ := List.mem_map.mp hin
    have hcmd : trackCmd env p odir k = ffmpegCommand p j q :=
      Event.exec.inj hke
    have : k = j := ffmpegCommand_index_injective hcmd
    subst this
    exact absurd (List.mem_range.mp hk) (by omega)
  · rw [htrace]
    rw [show preEvents env p odir (Int.ofNat N) ++
        ((extractLoop env p (resolvedOutputDir env p odir)
            (splitextRoot (basename p)) (List.range i) 0).2.1 ++
          [Event.print (msgExtracting i (joinPath (resolvedOutputDir env p odir)
             (trackFileName (splitextRoot (basename p)) i))),
           Event.exec (loopCmd p (resolvedOutputDir env p odir)
             (splitextRoot (basename p)) i),
           Event.print msgFfmpegMissing])
        = (preEvents env p odir (Int.ofNat N) ++
           ((extractLoop env p (resolvedOutputDir env p odir)
              (splitextRoot (basename p)) (List.range i) 0).2.1 ++
            [Event.print (msgExtracting i (joinPath (resolvedOutputDir env p odir)
               (trackFileName (splitextRoot (basename p)) i))),
             Event.exec (loopCmd p (resolvedOutputDir env p odir)
               (splitextRoot (basename p)) i)])) ++
          [Event.print msgFfmpegMissing] by simp [List.append_assoc]]
    exact List.getLast?_concat _

/-- Claim C3, witness: in a concrete world where ffprobe works but the
ffmpeg binary is missing, the run with two reported streams attempts only
index 0 and ends with the missing-binary report. -/
theorem claim_C3_witness :
    (runTrace envFfmpegMissing "m.mp4" Option.none).filter isFfmpegExec
      = (List.range (0 + 1)).map
          (fun j => Event.exec (trackCmd envFfmpegMissing "m.mp4" Option.none j)) ∧
    (∀ j, 0 < j → ∀ q : String,
      Event.exec (ffmpegCommand "m.mp4" j q)
        ∉ runTrace envFfmpegMissing "m.mp4" Option.none) ∧
    (runTrace envFfmpegMissing "m.mp4" Option.none).getLast?
      = Option.some (Event.print msgFfmpegMissing) :=
  claim_C3 envFfmpegMissing "m.mp4" Option.none 2 0 rfl rfl (by decide)
    (fun d hd => nomatch hd) (fun j hj => absurd hj (by omega)) (by decide)

/-- Claim C4: in a run that reaches the output-directory step, the output
directory resolves to the caller-supplied directory when given and to the
input file's own directory otherwise; when a supplied directory does not
exist, `os.makedirs` is called before any extraction attempt (the trace up
to the `mkdirs` event holds no transcode invocation), and when that
creation fails the run reports the failure as its last event and performs
zero extraction attempts.  The default (no directory supplied) case
carries the hypothesis that the input file's own directory exists — true
of any real filesystem holding the input file — under which no creation is
needed. -/
theorem claim_C4 (env : Env) (p : String) (odir : Option String) (N : Nat)
    (hfile : env.isfile p = true)
    (hgac : streamCountOf env p = Int.ofNat N)
    (hN : 0 < N)
    (hdefault : odir = Option.none →
      env.pathExists (dirname (env.abspath p)) = true) :
    (resolvedOutputDir env p Option.none = dirname (env.abspath p) ∧
     ∀ d, resolvedOutputDir env p (Option.some d) = d) ∧
    (odir = Option.none →
      env.pathExists (resolvedOutputDir env p odir) = true) ∧
    (∀ d, odir = Option.some d → env.pathExists d = false →
      env.makedirs d = Option.none →
        ∃ t1 t2, runTrace env p odir = t1 ++ Event.mkdirs d :: t2 ∧
          t1.filter isFfmpegExec = []) ∧
    (∀ d e, odir = Option.some d → env.pathExists d = false →
      env.makedirs d = Option.some e →
        (runTrace env p odir).filter isFfmpegExec = [] ∧
        (runTrace env p odir).getLast?
          = Option.some (Event.print (msgDirFail d e))) := by
  refine ⟨⟨rfl, fun d => rfl⟩, ?_, ?_, ?_⟩
  · intro h
    rw [h]
    exact hdefault h
  · intro d hod hex hmk
    subst hod
    have hrun := extract_run_eq env p (Option.some d) N hfile hgac hN
      (fun d2 hd2 => by cases hd2; exact Or.inr hmk)
    refine ⟨Event.print (msgProcessing p) :: gacEvents env p ++
      [Event.print (msgFoundTracks p (Int.ofNat N))],
      Event.print (msgDirCreated d) ::
        runLoopAndSummary env p d (splitextRoot (basename p)) N, ?_, ?_⟩
    · unfold runTrace
      rw [hrun]
      unfold preEvents
      simp [hex, resolvedOutputDir, List.append_assoc]
    · simp [List.filter_cons, List.filter_append, gacEvents_no_ffmpeg,
        isFfmpegExec_print]
  · intro d e hod hex hmk
    subst hod
    have hpos : ¬ (Int.ofNat N ≤ 0) :=
      fun hc => absurd ((Int.ofNat_le (m := N) (n := 0)).mp hc) (by omega)
    have htr : extract_audio_tracks env p (Option.some d)
        = Except.ok ((Event.print (msgProcessing p) :: gacEvents env p ++
            [Event.print (msgFoundTracks p (Int.ofNat N)), Event.mkdirs d]) ++
          [Event.print (msgDirFail d e)]) := by
      unfold extract_audio_tracks
      rw [hfile]
      rw [gac_ok env p, hgac]
      simp only [Bool.true_eq_false, if_false, hpos, if_true]
      simp [hex, hmk, List.append_assoc]
    have htrace : runTrace env p (Option.some d)
        = (Event.print (msgProcessing p) :: gacEvents env p ++
            [Event.print (msgFoundTracks p (Int.ofNat N)), Event.mkdirs d]) ++
          [Event.print (msgDirFail d e)] := by
      unfold runTrace
      rw [htr]
    constructor
    · rw [htrace]
      simp [List.filter_cons, List.filter_append, gacEvents_no_ffmpeg,
        isFfmpegExec_print, isFfmpegExec_mkdirs]
    · rw [htrace]
      exact List.getLast?_concat _

/-- Claim C4, witness: a concrete run supplying a non-existent output
directory whose creation succeeds. -/
theorem claim_C4_witness :
    (resolvedOutputDir envMkdirOk "m.mp4" Option.none
        = dirname (envMkdirOk.abspath "m.mp4") ∧
     ∀ d, resolvedOutputDir envMkdirOk "m.mp4" (Option.some d) = d) ∧
    (Option.some "out" = Option.none →
      envMkdirOk.pathExists
        (resolvedOutputDir envMkdirOk "m.mp4" (Option.some "out")) = true) ∧
    (∀ d, Option.some "out" = Option.some d → envMkdirOk.pathExists d = false →
      envMkdirOk.makedirs d = Option.none →
        ∃ t1 t2, runTrace envMkdirOk "m.mp4" (Option.some "out")
            = t1 ++ Event.mkdirs d :: t2 ∧
          t1.filter isFfmpegExec = []) ∧
    (∀ d e, Option.some "out" = Option.some d →
      envMkdirOk.pathExists d = false →
      envMkdirOk.makedirs d = Option.some e →
        (runTrace envMkdirOk "m.mp4" (Option.some "out")).filter isFfmpegExec
          = [] ∧
        (runTrace envMkdirOk "m.mp4" (Option.some "out")).getLast?
          = Option.some (Event.print (msgDirFail d e))) :=
  claim_C4 envMkdirOk "m.mp4" (Option.some "out") 1 rfl rfl (by decide)
    (fun h => nomatch h)

/-- Claim C5: `get_audio_stream_count` never raises — it always returns a
value (`Except.ok`), which is either a non-negative count (the number of
audio-stream entries of the parsed probe output) or the sentinel `-1`;
each of its four error conditions (probe binary missing, probe non-zero
exit, unparseable output, any other unexpected error — including a parsed
value on which `.get` or `len` raises) yields `-1` together with a console
message. -/
theorem claim_C5 (env : Env) (p : String) :
    ∃ (n : Int) (evs : List Event),
      get_audio_stream_count env p = Except.ok (n, evs) ∧
      (0 ≤ n ∨ n = -1) ∧
      (env.run (ffprobeCommand p) = RunOutcome.fileNotFound →
        n = -1 ∧ Event.print msgFfprobeMissing ∈ evs) ∧
      (∀ e st, env.run (ffprobeCommand p) = RunOutcome.calledProcessError e st →
        n = -1 ∧ Event.print (msgProbeError e) ∈ evs) ∧
      (∀ so st, env.run (ffprobeCommand p) = RunOutcome.ok so st →
        env.jsonParse so = Option.none →
        n = -1 ∧ Event.print msgParseFail ∈ evs) ∧
      (∀ e, env.run (ffprobeCommand p) = RunOutcome.otherError e →
        n = -1 ∧ Event.print (msgUnexpectedGac e) ∈ evs) ∧
      (∀ so st v e, env.run (ffprobeCommand p) = RunOutcome.ok so st →
        env.jsonParse so = Option.some v → streamsLen v = Except.error e →
        n = -1 ∧ Event.print (msgUnexpectedGac e) ∈ evs) ∧
      (∀ so st v k, env.run (ffprobeCommand p) = RunOutcome.ok so st →
        env.jsonParse so = Option.some v → streamsLen v = Except.ok k →
        n = Int.ofNat k) := by
  unfold get_audio_stream_count
  cases h : env.run (ffprobeCommand p) with
  | ok so st =>
    simp only [h]
    cases hj : env.jsonParse so with
    | none =>
      refine ⟨-1, _, rfl, Or.inr rfl, ?_, ?_, ?_, ?_, ?_, ?_⟩ <;>
        intros <;> simp_all
    | some v =>
      simp only [hj]
      cases hs : streamsLen v with
      | ok k =>
        refine ⟨Int.ofNat k, _, rfl, Or.inl (Int.ofNat_nonneg k), ?_, ?_, ?_,
          ?_, ?_, ?_⟩ <;> intros <;> simp_all
      | error e =>
        refine ⟨-1, _, rfl, Or.inr rfl, ?_, ?_, ?_, ?_, ?_, ?_⟩ <;>
          intros <;> simp_all
  | fileNotFound =>
    simp only [h]
    refine ⟨-1, _, rfl, Or.inr rfl, ?_, ?_, ?_, ?_, ?_, ?_⟩ <;>
      intros <;> simp_all
  | calledProcessError e st =>
    simp only [h]
    refine ⟨-1, _, rfl, Or.inr rfl, ?_, ?_, ?_, ?_, ?_, ?_⟩ <;>
      intros <;> simp_all
  | otherError e =>
    simp only [h]
    refine ⟨-1, _, rfl, Or.inr rfl, ?_, ?_, ?_, ?_, ?_, ?_⟩ <;>
      intros <;> simp_all

/-- Claim C6, counterexample: the claim asserts the summary also covers
runs halted by a missing ffmpeg binary, but such a run returns at the
`except FileNotFoundError` handler before the summary block.  In
`envFfmpegMissing` the inspector reports 2 tracks and the success counter
ends at 0, so the claim predicts the all-failed summary; instead the trace
ends at the missing-binary report and contains no summary line of any
form. -/
theorem claim_C6_counterexample :
    streamCountOf envFfmpegMissing "m.mp4" = Int.ofNat 2 ∧
    runSuccesses envFfmpegMissing "m.mp4" Option.none 2 = 0 ∧
    (runTrace envFfmpegMissing "m.mp4" Option.none).getLast?
      = Option.some (Event.print msgFfmpegMissing) ∧
    Event.print msgAllFailed ∉ runTrace envFfmpegMissing "m.mp4" Option.none ∧
    Event.print (msgAllDone 0) ∉ runTrace envFfmpegMissing "m.mp4" Option.none ∧
    Event.print (msgAllDone 1) ∉ runTrace envFfmpegMissing "m.mp4" Option.none ∧
    Event.print (msgAllDone 2) ∉ runTrace envFfmpegMissing "m.mp4" Option.none ∧
    Event.print (msgPartial 1) ∉ runTrace envFfmpegMissing "m.mp4" Option.none ∧
    Event.print (msgPartial 2) ∉ runTrace envFfmpegMissing "m.mp4" Option.none := by
  decide

/-- Claim C6 (amended: the summary covers every run with `N > 0` tracks in
which the loop was not halted by a missing ffmpeg binary; a halted run
returns immediately with no summary, as `claim_C6_counterexample` shows):
after the loop, a summary chosen by comparing the success counter with `N`
is appended to the trace — all-succeeded when the counter equals `N`,
partial when it is strictly between 0 and `N`, all-failed when it is 0. -/
theorem claim_C6 (env : Env) (p : String) (odir : Option String) (N : Nat)
    (hfile : env.isfile p = true)
    (hgac : streamCountOf env p = Int.ofNat N)
    (hN : 0 < N)
    (hdir : ∀ d, odir = Option.some d →
      env.pathExists d = true ∨ env.makedirs d = Option.none)
    (hnf : ∀ i, i < N →
      env.run (trackCmd env p odir i) ≠ RunOutcome.fileNotFound) :
    runSuccesses env p odir N ≤ N ∧
    (∃ t0, runTrace env p odir
      = t0 ++ summaryEvents env (resolvedOutputDir env p odir)
          (runSuccesses env p odir N) N) ∧
    (runSuccesses env p odir N = N →
      summaryEvents env (resolvedOutputDir env p odir)
          (runSuccesses env p odir N) N
        = [Event.print (msgAllDone (runSuccesses env p odir N)),
           Event.print (msgOutDir (env.abspath (resolvedOutputDir env p odir)))]) ∧
    (0 < runSuccesses env p odir N → runSuccesses env p odir N ≠ N →
      summaryEvents env (resolvedOutputDir env p odir)
          (runSuccesses env p odir N) N
        = [Event.print (msgPartial (runSuccesses env p odir N)),
           Event.print (msgOutDir (env.abspath (resolvedOutputDir env p odir)))]) ∧
    (runSuccesses env p odir N = 0 →
      summaryEvents env (resolvedOutputDir env p odir)
          (runSuccesses env p odir N) N
        = [Event.print msgAllFailed]) := by
  have hclean := extractLoop_clean env p (resolvedOutputDir env p odir)
    (splitextRoot (basename p)) (List.range N) 0
    (fun i hi => by
      rw [← trackCmd_eq_loopCmd]
      exact hnf i (List.mem_range.mp hi))
  refine ⟨?_, ?_, ?_, ?_, ?_⟩
  · unfold runSuccesses
    rw [hclean.2.1]
    simpa using List.countP_le_length
      (fun i => isOkRun (env.run (loopCmd p (resolvedOutputDir env p odir)
        (splitextRoot (basename p)) i))) (l := List.range N)
  · have hrun := extract_run_eq env p odir N hfile hgac hN hdir
    refine ⟨preEvents env p odir (Int.ofNat N) ++
      (extractLoop env p (resolvedOutputDir env p odir)
        (splitextRoot (basename p)) (List.range N) 0).2.1, ?_⟩
    unfold runTrace
    rw [hrun]
    unfold runLoopAndSummary runSuccesses
    simp only [hclean.1, Bool.false_eq_true, if_false, List.append_assoc]
  · intro hk
    exact summaryEvents_all env _ _ hk hN
  · intro h0 hne
    exact summaryEvents_partial env _ h0 hne
  · intro h0
    rw [h0]
    exact summaryEvents_none env _ hN (by omega)

/-- Claim C6, witness: a run with two streams where track 0 fails and
track 1 succeeds; the success counter ends at 1 and the partial summary is
selected. -/
theorem claim_C6_witness :
    runSuccesses envTrack0Fails "m.mp4" Option.none 2 ≤ 2 ∧
    (∃ t0, runTrace envTrack0Fails "m.mp4" Option.none
      = t0 ++ summaryEvents envTrack0Fails
          (resolvedOutputDir envTrack0Fails "m.mp4" Option.none)
          (runSuccesses envTrack0Fails "m.mp4" Option.none 2) 2) ∧
    (runSuccesses envTrack0Fails "m.mp4" Option.none 2 = 2 →
      summaryEvents envTrack0Fails
          (resolvedOutputDir envTrack0Fails "m.mp4" Option.none)
          (runSuccesses envTrack0Fails "m.mp4" Option.none 2) 2
        = [Event.print (msgAllDone (runSuccesses envTrack0Fails "m.mp4"
             Option.none 2)),
           Event.print (msgOutDir (envTrack0Fails.abspath
             (resolvedOutputDir envTrack0Fails "m.mp4" Option.none)))]) ∧
    (0 < runSuccesses envTrack0Fails "m.mp4" Option.none 2 →
      runSuccesses envTrack0Fails "m.mp4" Option.none 2 ≠ 2 →
      summaryEvents envTrack0Fails
          (resolvedOutputDir envTrack0Fails "m.mp4" Option.none)
          (runSuccesses envTrack0Fails "m.mp4" Option.none 2) 2
        = [Event.print (msgPartial (runSuccesses envTrack0Fails "m.mp4"
             Option.none 2)),
           Event.print (msgOutDir (envTrack0Fails.abspath
             (resolvedOutputDir envTrack0Fails "m.mp4" Option.none)))]) ∧
    (runSuccesses envTrack0Fails "m.mp4" Option.none 2 = 0 →
      summaryEvents envTrack0Fails
          (resolvedOutputDir envTrack0Fails "m.mp4" Option.none)
          (runSuccesses envTrack0Fails "m.mp4" Option.none 2) 2
        = [Event.print msgAllFailed]) :=
  claim_C6 envTrack0Fails "m.mp4" Option.none 2 rfl rfl (by decide)
    (fun d hd => nomatch hd) (by decide)

theorem extract_zero_trace (env : Env) (p : String) (odir : Option String)
    (hfile : env.isfile p = true) (h0 : streamCountOf env p = 0) :
    extract_audio_tracks env p odir
      = Except.ok (Event.print (msgProcessing p) ::
          (gacEvents env p ++ [Event.print (msgNoTracks p)])) := by
  unfold extract_audio_tracks
  rw [hfile]
  rw [gac_ok env p, h0]
  norm_num

theorem extract_sentinel_trace (env : Env) (p : String) (odir : Option String)
    (hfile : env.isfile p = true) (h1 : streamCountOf env p = -1) :
    extract_audio_tracks env p odir
      = Except.ok (Event.print (msgProcessing p) :: gacEvents env p) := by
  unfold extract_audio_tracks
  rw [hfile]
  rw [gac_ok env p, h1]
  norm_num

/-- Claim C7: when the input path is not an existing regular file, the run
prints a single error message and returns: its whole trace is that one
print — no external tool is invoked and no directory is created. -/
theorem claim_C7 (env : Env) (p : String) (odir : Option String)
    (hfile : env.isfile p = false) :
    extract_audio_tracks env p odir
      = Except.ok [Event.print (msgInputMissing p)] ∧
    (runTrace env p odir).filter isExec = [] ∧
    (runTrace env p odir).filter isMkdirs = [] := by
  have h : extract_audio_tracks env p odir
      = Except.ok [Event.print (msgInputMissing p)] := by
    unfold extract_audio_tracks
    simp [hfile]
  refine ⟨h, ?_, ?_⟩ <;> simp [runTrace, h, isExec, isMkdirs]

/-- Claim C7, witness: a concrete world whose input path is not a regular
file. -/
theorem claim_C7_witness :
    extract_audio_tracks envNoInput "m.mp4" Option.none
      = Except.ok [Event.print (msgInputMissing "m.mp4")] ∧
    (runTrace envNoInput "m.mp4" Option.none).filter isExec = [] ∧
    (runTrace envNoInput "m.mp4" Option.none).filter isMkdirs = [] :=
  claim_C7 envNoInput "m.mp4" Option.none rfl

/-- Claim C8: when the inspector reports 0 tracks the run prints the
no-tracks report and stops — the trace is the header, the inspector's
events and that report, with no transcode invocation and no directory
creation; when the inspector returns the sentinel `-1` the run stops with
the trace being exactly the header followed by the inspector's own events:
it adds no message of its own after the sentinel, attempts no extraction
and creates nothing. -/
theorem claim_C8 (env : Env) (p : String) (odir : Option String)
    (hfile : env.isfile p = true) :
    (streamCountOf env p = 0 →
      runTrace env p odir
        = Event.print (msgProcessing p) ::
            (gacEvents env p ++ [Event.print (msgNoTracks p)]) ∧
      (runTrace env p odir).filter isFfmpegExec = [] ∧
      (runTrace env p odir).filter isMkdirs = []) ∧
    (streamCountOf env p = -1 →
      runTrace env p odir = Event.print (msgProcessing p) :: gacEvents env p ∧
      (runTrace env p odir).filter isFfmpegExec = [] ∧
      (runTrace env p odir).filter isMkdirs = []) := by
  constructor
  · intro h0
    have htrace : runTrace env p odir
        = Event.print (msgProcessing p) ::
            (gacEvents env p ++ [Event.print (msgNoTracks p)]) := by
      unfold runTrace
      rw [extract_zero_trace env p odir hfile h0]
    refine ⟨htrace, ?_, ?_⟩ <;> rw [htrace] <;>
      simp [List.filter_cons, List.filter_append, gacEvents_no_ffmpeg,
        gacEvents_no_mkdirs, isFfmpegExec_print, isMkdirs_print]
  · intro h1
    have htrace : runTrace env p odir
        = Event.print (msgProcessing p) :: gacEvents env p := by
      unfold runTrace
      rw [extract_sentinel_trace env p odir hfile h1]
    refine ⟨htrace, ?_, ?_⟩ <;> rw [htrace] <;>
      simp [List.filter_cons, gacEvents_no_ffmpeg, gacEvents_no_mkdirs,
        isFfmpegExec_print, isMkdirs_print]

/-- Claim C8, witness: a concrete world whose probe reports zero audio
streams (the sentinel implication is instantiated vacuously there, and is
exercised by `envProbeMissing` in `claim_C10`-adjacent worlds). -/
theorem claim_C8_witness :
    (streamCountOf (okEnv 0) "m.mp4" = 0 →
      runTrace (okEnv 0) "m.mp4" Option.none
        = Event.print (msgProcessing "m.mp4") ::
            (gacEvents (okEnv 0) "m.mp4" ++ [Event.print (msgNoTracks "m.mp4")]) ∧
      (runTrace (okEnv 0) "m.mp4" Option.none).filter isFfmpegExec = [] ∧
      (runTrace (okEnv 0) "m.mp4" Option.none).filter isMkdirs = []) ∧
    (streamCountOf (okEnv 0) "m.mp4" = -1 →
      runTrace (okEnv 0) "m.mp4" Option.none
        = Event.print (msgProcessing "m.mp4") :: gacEvents (okEnv 0) "m.mp4" ∧
      (runTrace (okEnv 0) "m.mp4" Option.none).filter isFfmpegExec = [] ∧
      (runTrace (okEnv 0) "m.mp4" Option.none).filter isMkdirs = []) :=
  claim_C8 (okEnv 0) "m.mp4" Option.none rfl

/-- Claim C9: for every combination of input arguments and
external-process outcomes, `extract_audio_tracks` returns normally — the
result is always `Except.ok` (a finite trace), never a propagated
exception. -/
theorem claim_C9 (env : Env) (p : String) (odir : Option String) :
    ∃ t, extract_audio_tracks env p odir = Except.ok t := by
  unfold extract_audio_tracks
  by_cases hf : env.isfile p = false
  · rw [if_pos hf]
    exact ⟨_, rfl⟩
  · rw [if_neg hf]
    simp only [gac_ok env p]
    by_cases hn : streamCountOf env p ≤ 0
    · rw [if_pos hn]
      by_cases h0 : streamCountOf env p = 0
      · rw [if_pos h0]
        exact ⟨_, rfl⟩
      · rw [if_neg h0]
        exact ⟨_, rfl⟩
    · rw [if_neg hn]
      cases odir with
      | none => exact ⟨_, rfl⟩
      | some d =>
        by_cases hex : env.pathExists d = false
        · cases hmk : env.makedirs d with
          | none =>
            simp only [hex, hmk]
            exact ⟨_, rfl⟩
          | some e =>
            simp only [hex, hmk]
            exact ⟨_, rfl⟩
        · simp only [hex]
          exact ⟨_, rfl⟩

/-- Claim C10: when the probe exits 0 and its output parses as JSON but
the parsed dict lacks a streams key, `get_audio_stream_count` returns 0
(not the sentinel `-1`), and the run treats it as the no-tracks case: it
reports no tracks as its last line, attempts no extraction and creates no
directory. -/
theorem claim_C10 (env : Env) (p : String) (odir : Option String)
    (so st : String) (es : List (String × PyObj))
    (hfile : env.isfile p = true)
    (hrun : env.run (ffprobeCommand p) = RunOutcome.ok so st)
    (hparse : env.jsonParse so = Option.some (PyObj.dict es))
    (hkey : es.lookup "streams" = Option.none) :
    streamCountOf env p = 0 ∧
    (runTrace env p odir).getLast? = Option.some (Event.print (msgNoTracks p)) ∧
    (runTrace env p odir).filter isFfmpegExec = [] ∧
    (runTrace env p odir).filter isMkdirs = [] := by
  have hsl : streamsLen (PyObj.dict es) = Except.ok 0 := by
    unfold streamsLen pyGetD
    simp [hkey, pyLen]
  have hcount : streamCountOf env p = 0 := by
    unfold streamCountOf get_audio_stream_count
    simp [hrun, hparse, hsl]
  have htrace : runTrace env p odir
      = Event.print (msgProcessing p) ::
          (gacEvents env p ++ [Event.print (msgNoTracks p)]) := by
    unfold runTrace
    rw [extract_zero_trace env p odir hfile hcount]
  refine ⟨hcount, ?_, ?_, ?_⟩
  · rw [htrace, show Event.print (msgProcessing p) ::
      (gacEvents env p ++ [Event.print (msgNoTracks p)])
      = (Event.print (msgProcessing p) :: gacEvents env p) ++
        [Event.print (msgNoTracks p)] by simp]
    exact List.getLast?_concat _
  · rw [htrace]
    simp [List.filter_cons, List.filter_append, gacEvents_no_ffmpeg,
      isFfmpegExec_print]
  · rw [htrace]
    simp [List.filter_cons, List.filter_append, gacEvents_no_mkdirs,
      isMkdirs_print]

/-- Claim C10, witness: a concrete world whose probe output parses as a
dict with only a format key and no streams key. -/
theorem claim_C10_witness :
    streamCountOf envNoStreamsKey "m.mp4" = 0 ∧
    (runTrace envNoStreamsKey "m.mp4" Option.none).getLast?
      = Option.some (Event.print (msgNoTracks "m.mp4")) ∧
    (runTrace envNoStreamsKey "m.mp4" Option.none).filter isFfmpegExec = [] ∧
    (runTrace envNoStreamsKey "m.mp4" Option.none).filter isMkdirs = [] :=
  claim_C10 envNoStreamsKey "m.mp4" Option.none "" ""
    [("format", PyObj.dict [])] rfl rfl rfl rfl

end MP4Wav
